import Mathlib

/-!
Shallow embedding of the `policied` bandwidth-shaping library (files
`policied.go` and `conn.go`) and proofs about its rate, chunk and
lifecycle behaviour.

Conventions of the embedding:

* Go `uint64` values become `Nat`.  Per the design notes, rate values that
  would overflow `uint64` when multiplied by 1024 are the responsibility of
  the caller and no claim exercises the wrap-around, so the modulus is
  omitted.
* `golang.org/x/time/rate.Limiter` objects are immutable once published and
  the code only ever constructs them with a refill limit and a burst; the
  embedding keeps exactly that pair.  A refill limit of `rate.Inf` is
  encoded as `none`.
* Channels (`sizes`, `permits`) and sleeps only affect timing, never the
  byte accounting, so the write loop is modelled with the transport as an
  oracle and the admission rendezvous abstracted away.
* `math.Ceil (float64 g * 0.005)` is modelled as the exact ceiling
  `(g + 199) / 200` of `g / 200` over the naturals; for every rate the
  test-suite or the claims exercise the `float64` computation agrees with
  the exact one.
* `sync.Map` becomes an association list keyed by the remote address
  (modelled as a `Nat`); `Store` replaces any previous binding.
-/

namespace Policied

/-- A `rate.Limiter` as the code constructs it: a refill limit in bytes per
second (`none` encodes `rate.Inf`) and a burst (bucket depth) in bytes. -/
structure Limiter where
  rate : Option Nat
  burst : Nat
deriving DecidableEq

/-- State of a `WrappedConn` (`conn.go`): the per-connection rate `bps`, the
most recent `maxChunk` pushed by the policier, the effective `chunkSize`,
the per-connection limiter, and the lifecycle fields.  `sizesClosed` records
whether the `sizes` channel has been closed, `onceDone` whether the
`sync.Once` body has run, and `transportCloses` counts calls forwarded to
the underlying transport `Close`. -/
structure WrappedConn where
  bps : Nat
  maxChunk : Nat
  chunkSize : Nat
  limiter : Limiter
  closed : Bool
  onceDone : Bool
  sizesClosed : Bool
  transportCloses : Nat
deriving DecidableEq

/-- `WrappedConn.calcChunk` from `conn.go`: store the new `maxChunk`; if
`max > bps && bps > 0` the chunk size becomes `bps`, otherwise `max`. -/
def calcChunk (c : WrappedConn) (max : Nat) : WrappedConn :=
  if max > c.bps ∧ c.bps > 0 then { c with maxChunk := max, chunkSize := c.bps }
  else { c with maxChunk := max, chunkSize := max }

/-- `WrappedConn.setRate` from `conn.go` (internal, called from the
policier): store `bps`, recompute the chunk via `calcChunk`, and replace the
limiter with `NewLimiter(bps or Inf when bps = 0, burst = bps)`. -/
def setRate (c : WrappedConn) (bps maxChunk : Nat) : WrappedConn :=
  { calcChunk { c with bps := bps } maxChunk with
    limiter := { rate := if bps = 0 then none else some bps, burst := bps } }

/-- `WrapConn` from `conn.go`: build the record with zero-valued derived
fields and an infinite limiter of burst 0, then run `setRate bps maxChunk`. -/
def WrapConn (bps maxChunk : Nat) : WrappedConn :=
  setRate
    { bps := bps, maxChunk := 0, chunkSize := 0,
      limiter := { rate := none, burst := 0 },
      closed := false, onceDone := false, sizesClosed := false,
      transportCloses := 0 } bps maxChunk

/-- Exact model of `uint64(math.Ceil(float64 g * 0.005))`: the ceiling of
`g / 200` over the naturals. -/
def ceil005 (g : Nat) : Nat := (g + 199) / 200

/-- State of the `Policier` (`policied.go`): global and default
per-connection rates in bytes per second, the derived `maxChunk`, the
current global limiter, and the connection registry keyed by remote
address. -/
structure Policier where
  globalBps : Nat
  connBPS : Nat
  maxChunk : Nat
  limiter : Limiter
  connPool : List (Nat × WrappedConn)
deriving DecidableEq

/-- `sync.Map.Store`: replace any binding of the key, then add the new
binding. -/
def storeConn (pool : List (Nat × WrappedConn)) (addr : Nat)
    (c : WrappedConn) : List (Nat × WrappedConn) :=
  (addr, c) :: pool.eraseP (fun kv => kv.1 == addr)

/-- `Policier.SetGlobalRate` from `policied.go`: with `globalRate :=
kbps * 1024`, store `connBPS` as the global rate when `globalRate > 0 &&
globalRate < connBPS` (clamp up) and `globalRate` otherwise; set `maxChunk`
to `ceil(globalRate * 0.005)` when `globalRate > 0` and to `128 * 1024`
otherwise; push the new `maxChunk` to every pooled connection via
`calcChunk`; finally replace the limiter with `NewLimiter(globalRate or Inf
when globalRate = 0, burst = maxChunk)`. -/
def SetGlobalRate (p : Policier) (kbps : Nat) : Policier :=
  let globalRate := kbps * 1024
  let newGlobal :=
    if globalRate > 0 ∧ globalRate < p.connBPS then p.connBPS else globalRate
  let maxChunk := if globalRate > 0 then ceil005 globalRate else 128 * 1024
  { globalBps := newGlobal,
    connBPS := p.connBPS,
    maxChunk := maxChunk,
    limiter := { rate := if globalRate = 0 then none else some globalRate,
                 burst := maxChunk },
    connPool := p.connPool.map (fun kv => (kv.1, calcChunk kv.2 maxChunk)) }

/-- `NewPolicier` from `policied.go`: start from the zero-valued record with
`connBPS := connKBPS * 1024` and a `NewLimiter(0, 0)` limiter, then run
`SetGlobalRate`. -/
def NewPolicier (gloablKBPS connKBPS : Nat) : Policier :=
  SetGlobalRate
    { globalBps := 0, connBPS := connKBPS * 1024, maxChunk := 0,
      limiter := { rate := some 0, burst := 0 }, connPool := [] } gloablKBPS

/-- `Policier.limitConnections` from `policied.go`: run
`setRate kbps maxChunk` on every pooled connection.  Note the first argument
is forwarded exactly as received. -/
def limitConnections (p : Policier) (kbps maxChunk : Nat) : Policier :=
  { p with connPool := p.connPool.map (fun kv => (kv.1, setRate kv.2 kbps maxChunk)) }

/-- `Policier.SetConnRate` from `policied.go`: with `connRate :=
kbps * 1024`, the code loads `p.connBPS` into its local `globalRate`
variable, clamps `connRate` down to it when it is positive and smaller,
stores the result in `connBPS`, and then calls
`limitConnections(kbps, p.maxChunk)` with the raw kilobyte argument. -/
def SetConnRate (p : Policier) (kbps : Nat) : Policier :=
  limitConnections
    { p with connBPS :=
        if p.connBPS > 0 ∧ kbps * 1024 > p.connBPS then p.connBPS
        else kbps * 1024 }
    kbps p.maxChunk

/-- `Policier.Wrap` from `policied.go`.  The transport connection itself is
irrelevant to the wrapped state, so the argument is only the accept error
(`Option Nat`) and the remote address used as pool key.  The result records
the wrapped connection (if any), the returned error, the policier after the
registration, and whether the admission task (`go p.listenConn`) was
started. -/
def Wrap (p : Policier) (err : Option Nat) (addr : Nat) :
    Option WrappedConn × Option Nat × Policier × Bool :=
  match err with
  | some e => (none, some e, p, false)
  | none =>
    let wrapped := WrapConn p.connBPS p.maxChunk
    (some wrapped, none,
     { p with connPool := storeConn p.connPool addr wrapped }, true)

/-- Result of `WrappedConn.Close`: either `ErrConnClosed` or the result of
the transport `Close` (an `Option Nat`, `none` meaning a nil error). -/
inductive CloseResult where
  | connClosed
  | transport (e : Option Nat)
deriving DecidableEq

/-- `WrappedConn.Close` from `conn.go`: if `closed` is already set, return
`ErrConnClosed` and touch nothing; otherwise run the `sync.Once` body
(close the `sizes` channel, set `closed`), then forward to the transport
`Close` and return its result. -/
def Close (c : WrappedConn) (transportResult : Option Nat) :
    CloseResult × WrappedConn :=
  if c.closed then (CloseResult.connClosed, c)
  else
    let c1 := if c.onceDone then c
              else { c with sizesClosed := true, closed := true, onceDone := true }
    (CloseResult.transport transportResult,
     { c1 with transportCloses := c1.transportCloses + 1 })

/-- System-level view of `WrappedConn.Close` for a connection stored in the
policier registry.  `Close` has no reference to the `Policier` (the wrapped
connection only holds the two channels), so closing updates the stored
record in place and cannot remove the pool entry. -/
def closePooled (p : Policier) (addr : Nat) (tres : Option Nat) : Policier :=
  { p with connPool := p.connPool.map (fun kv =>
      if kv.1 = addr then (kv.1, (Close kv.2 tres).2) else kv) }

/-- The chunk-size adjustment at the head of `WrappedConn.Write`: the
snapshot `chunkSize` is lowered to `bps` when `chunkSize > bps && bps > 0`. -/
def effChunk (chunkSize bps : Nat) : Nat :=
  if chunkSize > bps ∧ bps > 0 then bps else chunkSize

/-- Fuelled model of the loop of `WrappedConn.Write` for a buffer of length
`L`.  The transport is the oracle `tw`: the `k`-th transport write, asked to
deliver `m` bytes, reports `(tw k m).1` bytes written and the error
`(tw k m).2` (`none` is a nil error).  The admission rendezvous on `sizes` /
`permits` and the limiter sleeps affect only timing and are elided.  State:
`i` is the loop offset, `k` the index of the next transport write, `wrote`
the accumulated byte count.  `none` means the fuel ran out before the loop
returned. -/
def writeGo (tw : Nat → Nat → Nat × Option Nat) (chunk L : Nat) :
    Nat → Nat → Nat → Nat → Option (Nat × Option Nat)
  | 0, _, _, _ => none
  | fuel + 1, i, k, wrote =>
    if i < L then
      if i + chunk > L then
        match tw k (chunk - (i + chunk - L)) with
        | (n, e) => some (wrote + n, e)
      else
        match tw k chunk with
        | (n, some e) => some (wrote + n, some e)
        | (n, none) => writeGo tw chunk L fuel (i + chunk) (k + 1) (wrote + n)
    else
      some (wrote, none)

/-- `WrappedConn.Write` on a buffer of length `L`, given the snapshots
`chunkSize` and `bps` and the transport oracle `tw`, with the given fuel. -/
def write (tw : Nat → Nat → Nat × Option Nat) (chunkSize bps L fuel : Nat) :
    Option (Nat × Option Nat) :=
  writeGo tw (effChunk chunkSize bps) L fuel 0 0 0

/-- `Write` returns the pair `r` when some amount of fuel suffices for the
loop to produce it. -/
def WriteReturns (tw : Nat → Nat → Nat × Option Nat)
    (chunkSize bps L : Nat) (r : Nat × Option Nat) : Prop :=
  ∃ fuel, write tw chunkSize bps L fuel = some r

/-- `Write` never returns: no amount of fuel completes the loop. -/
def writeNeverReturns (tw : Nat → Nat → Nat × Option Nat)
    (chunkSize bps L : Nat) : Prop :=
  ∀ fuel, write tw chunkSize bps L fuel = none

/-- A transport whose every write succeeds and reports the full length of
the slice it was given. -/
def twOK : Nat → Nat → Nat × Option Nat := fun _ m => (m, none)

/-- A transport whose write number 1 reports 0 bytes and error code 7 while
write number 0 succeeds in full. -/
def twFail : Nat → Nat → Nat × Option Nat :=
  fun k m => if k = 0 then (m, none) else (0, some 7)

/-- Modelled from the spec: the burst-factor feature is code of this
repository missing from src (`server_test.go` and the README call
`Policier.SetBurstFactor`, but no definition of it, of the guarded factor,
or of `ErrWrongBurstFactor` is present in src).  Per-connection state as the
spec chunk rule sees it: the connection rate and its effective chunk size. -/
structure SpecConn where
  bps : Nat
  chunkSize : Nat
deriving DecidableEq

/-- Modelled from the spec: policier state carrying the guarded burst
factor (a rational standing for the float), missing from src together with
`SetBurstFactor`. -/
structure SpecPolicer where
  globalBps : Nat
  connBps : Nat
  burstFactor : ℚ
  maxChunk : Nat
  limiter : Option Nat × Nat
  conns : List (Nat × SpecConn)
deriving DecidableEq

/-- Modelled from the spec: the chunk-size policy with an adjustable burst
factor, `chunkSize = maxChunk` when the connection rate is 0 and
`ceil(rate * factor)` otherwise. -/
def specCalcChunk (f : ℚ) (maxChunk : Nat) (c : SpecConn) : SpecConn :=
  if c.bps = 0 then { c with chunkSize := maxChunk }
  else { c with chunkSize := Nat.ceil ((c.bps : ℚ) * f) }

/-- Modelled from the spec: reapplying the current global rate.  Clamp the
global rate up to the per-connection default when positive and smaller,
recompute `maxChunk = ceil(global * factor)` (0 when the global rate is 0),
replace the limiter with `(global, maxChunk)` (`(infinite, 0)` when the
global rate is 0), and push the new chunk to every connection. -/
def specApplyGlobal (p : SpecPolicer) : SpecPolicer :=
  let g := if 0 < p.globalBps ∧ p.globalBps < p.connBps then p.connBps
           else p.globalBps
  let mc := if 0 < g then Nat.ceil ((g : ℚ) * p.burstFactor) else 0
  { p with
    globalBps := g,
    maxChunk := mc,
    limiter := if g = 0 then (none, 0) else (some g, mc),
    conns := p.conns.map (fun kv => (kv.1, specCalcChunk p.burstFactor mc kv.2)) }

/-- The error of the spec-modelled burst-factor setter. -/
inductive SpecErr where
  | wrongBurstFactor
deriving DecidableEq

/-- Modelled from the spec: `Policier.SetBurstFactor`, missing from src.
`set(f)` fails with `ErrWrongBurstFactor` and mutates nothing when
`f < 0.001` or `f > 1`; otherwise it stores the factor and reapplies the
current global rate. -/
def SetBurstFactor (p : SpecPolicer) (f : ℚ) : Option SpecErr × SpecPolicer :=
  if f < 1 / 1000 ∨ 1 < f then (some SpecErr.wrongBurstFactor, p)
  else (none, specApplyGlobal { p with burstFactor := f })

/-! Helper lemmas shared by the claim theorems. -/

/-- The exact ceiling division `(g + 199) / 200` agrees with the rational
ceiling of `g / 200`, justifying `ceil005` as a model of
`math.Ceil(float64 g * 0.005)`. -/
theorem ceil005_eq_ceil (g : Nat) : ceil005 g = Nat.ceil ((g : ℚ) / 200) := by
  unfold ceil005
  apply le_antisymm
  · have h1 : (g : ℚ) / 200 ≤ (Nat.ceil ((g : ℚ) / 200) : ℚ) := Nat.le_ceil _
    have h2 : (g : ℚ) ≤ (Nat.ceil ((g : ℚ) / 200) : ℚ) * 200 := by
      rwa [div_le_iff₀ (by norm_num : (0 : ℚ) < 200)] at h1
    have h3 : g ≤ Nat.ceil ((g : ℚ) / 200) * 200 := by exact_mod_cast h2
    omega
  · rw [Nat.ceil_le, div_le_iff₀ (by norm_num : (0 : ℚ) < 200)]
    have h4 : g ≤ (g + 199) / 200 * 200 := by omega
    exact_mod_cast h4

/-- `calcChunk` only rewrites `maxChunk` and `chunkSize`. -/
theorem calcChunk_bps (c : WrappedConn) (m : Nat) : (calcChunk c m).bps = c.bps := by
  unfold calcChunk
  split <;> rfl

/-- `setRate` stores its first argument as the connection rate. -/
theorem setRate_bps (c : WrappedConn) (b m : Nat) : (setRate c b m).bps = b := by
  unfold setRate
  rw [show ({ calcChunk { c with bps := b } m with
        limiter := { rate := if b = 0 then none else some b, burst := b } } :
      WrappedConn).bps = (calcChunk { c with bps := b } m).bps from rfl]
  rw [calcChunk_bps]

/-! ## C1 -/

/-- C1: the claim states that when the global rate `G` is positive a
`SetConnRate` call applying `P > 0` leaves the stored per-connection
default at `min P G`.  The code instead loads `p.connBPS` into the variable
it names `globalRate` (its own comment says it checks against the global
rate) and therefore clamps against the old per-connection value: starting
from `NewPolicier 4096 1024` (global 4194304 B/s, per-conn 1048576 B/s),
`SetConnRate 2048` stores 1048576 instead of
`min (2048 * 1024) 4194304 = 2097152`. -/
theorem setConnRate_clamp_bug :
    (SetConnRate (NewPolicier 4096 1024) 2048).connBPS = 1024 * 1024 ∧
    (SetConnRate (NewPolicier 4096 1024) 2048).globalBps = 4096 * 1024 ∧
    min (2048 * 1024) (4096 * 1024) = 2048 * 1024 := by
  decide

/-! ## C2 -/

/-- C2: the claim states that after `SetConnRate kbps` every pooled
connection has had `setRate` invoked with the clamped byte value
`kbps * 1024`, so its limiter rate equals the stored default.  The code
passes the raw kilobyte argument to `limitConnections`, so with one wrapped
connection and `SetConnRate 2048` the stored default becomes
`2048 * 1024 = 2097152` while the connection rate and its limiter are set
to 2048 bytes per second. -/
theorem setConnRate_units_bug :
    (SetConnRate ((Wrap (NewPolicier 4096 0) none 7).2.2.1) 2048).connBPS =
      2048 * 1024 ∧
    (((SetConnRate ((Wrap (NewPolicier 4096 0) none 7).2.2.1) 2048).connPool.lookup
        7).map WrappedConn.bps) = some 2048 ∧
    (((SetConnRate ((Wrap (NewPolicier 4096 0) none 7).2.2.1) 2048).connPool.lookup
        7).map (fun c => c.limiter.rate)) = some (some 2048) := by
  decide

/-! ## C3 -/

/-- C3 counterexample: the claim states that `SetGlobalRate` leaves
`maxChunk = 0` when the resulting global rate is 0 and
`maxChunk = ceil(globalRate * 0.005)` of the resulting rate when it is
positive.  The code stores `128 * 1024` in the zero case, and in the
clamped case (requested 1024 B/s below the per-conn default 2097152 B/s,
stored global becomes 2097152) it computes the ceiling of the requested
rate, 6, not `ceil(2097152 * 0.005) = 10486`. -/
theorem setGlobalRate_maxChunk_counterexample :
    (SetGlobalRate (NewPolicier 2048 0) 0).maxChunk = 131072 ∧
    (NewPolicier 1 2048).maxChunk = 6 ∧
    (NewPolicier 1 2048).globalBps = 2048 * 1024 ∧
    ceil005 (2048 * 1024) = 10486 := by
  decide

/-- C3 amended: after `SetGlobalRate kbps`, the stored `maxChunk` is the
ceiling of `requested * 0.005` computed from the requested rate
`kbps * 1024` (even when the stored global rate is clamped up to the
per-connection default), and is `128 * 1024` when the requested rate is 0. -/
theorem setGlobalRate_maxChunk_formula (p : Policier) (kbps : Nat) :
    (SetGlobalRate p kbps).maxChunk =
      if 0 < kbps then Nat.ceil ((kbps * 1024 : ℚ) / 200) else 128 * 1024 := by
  show (if kbps * 1024 > 0 then ceil005 (kbps * 1024) else 128 * 1024) =
    if 0 < kbps then Nat.ceil ((kbps * 1024 : ℚ) / 200) else 128 * 1024
  rcases Nat.eq_zero_or_pos kbps with h | h
  · subst h
    norm_num
  · rw [if_pos (by omega : kbps * 1024 > 0), if_pos h, ceil005_eq_ceil]
    norm_num

/-! ## C4 -/

/-- C4 counterexample: the claim states that a connection with positive
rate gets `chunkSize = ceil(rate * 0.005)`, possibly exceeding the global
`maxChunk`.  A connection wrapped with rate 1024 B/s under
`maxChunk = 131072` gets `chunkSize = 1024`, not
`ceil(1024 * 0.005) = 6`. -/
theorem calcChunk_counterexample :
    (WrapConn 1024 131072).chunkSize = 1024 ∧
    Nat.ceil ((1024 : ℚ) * (5 / 1000)) = 6 ∧ (1024 : Nat) ≠ 6 := by
  refine ⟨by decide, ?_, by decide⟩
  rw [Nat.ceil_eq_iff (by norm_num : (6 : ℕ) ≠ 0)]
  norm_num

/-- C4 amended: recomputing the chunk via `calcChunk max` stores `max` as
the connection `maxChunk`; the chunk size becomes `max` when the rate is 0
and `min rate max` when the rate is positive, and therefore never exceeds
the pushed `maxChunk`. -/
theorem calcChunk_chunk_policy (c : WrappedConn) (m : Nat) :
    (calcChunk c m).chunkSize = (if c.bps = 0 then m else min c.bps m) ∧
    (calcChunk c m).maxChunk = m ∧
    (calcChunk c m).chunkSize ≤ m := by
  unfold calcChunk
  split
  · next h =>
    refine ⟨?_, rfl, ?_⟩
    · show c.bps = if c.bps = 0 then m else min c.bps m
      rw [if_neg (by omega : ¬ c.bps = 0)]
      omega
    · show c.bps ≤ m
      omega
  · next h =>
    refine ⟨?_, rfl, le_rfl⟩
    show m = if c.bps = 0 then m else min c.bps m
    rcases Nat.eq_zero_or_pos c.bps with h0 | h0
    · rw [if_pos h0]
    · rw [if_neg (by omega : ¬ c.bps = 0)]
      omega

/-! ## The write loop -/

/-- With chunk 0 and a transport that reports every requested length, the
loop index never advances: whatever the fuel, the loop has not returned. -/
theorem writeGo_zero_chunk (L : Nat) (hL : 0 < L) :
    ∀ fuel k, writeGo twOK 0 L fuel 0 k 0 = none := by
  intro fuel
  induction fuel with
  | zero => intro k; rfl
  | succ f ih =>
    intro k
    show (if 0 < L then
        if 0 + 0 > L then
          match twOK k (0 - (0 + 0 - L)) with
          | (n, e) => some (0 + n, e)
        else
          match twOK k 0 with
          | (n, some e) => some (0 + n, some e)
          | (n, none) => writeGo twOK 0 L f (0 + 0) (k + 1) (0 + n)
      else some (0, none)) = none
    rw [if_pos hL, if_neg (by omega : ¬ 0 + 0 > L)]
    show writeGo twOK 0 L f (0 + 0) (k + 1) (0 + 0) = none
    exact ih (k + 1)

/-- When every transport write succeeds in full and the chunk is positive,
the loop delivers everything that remains. -/
theorem writeGo_success (tw : Nat → Nat → Nat × Option Nat)
    (hw : ∀ k m, tw k m = (m, none)) (c L : Nat) (hc : 0 < c) :
    ∀ fuel i k wrote, L - i < fuel →
      writeGo tw c L fuel i k wrote = some (wrote + (L - i), none) := by
  intro fuel
  induction fuel with
  | zero => intro i k wrote h; omega
  | succ f ih =>
    intro i k wrote h
    show (if i < L then
        if i + c > L then
          match tw k (c - (i + c - L)) with
          | (n, e) => some (wrote + n, e)
        else
          match tw k c with
          | (n, some e) => some (wrote + n, some e)
          | (n, none) => writeGo tw c L f (i + c) (k + 1) (wrote + n)
      else some (wrote, none)) = some (wrote + (L - i), none)
    by_cases hiL : i < L
    · rw [if_pos hiL]
      by_cases hlast : i + c > L
      · rw [if_pos hlast, hw]
        show some (wrote + (c - (i + c - L)), none) = some (wrote + (L - i), none)
        congr 2
        omega
      · rw [if_neg hlast, hw]
        show writeGo tw c L f (i + c) (k + 1) (wrote + c) = some (wrote + (L - i), none)
        rw [ih (i + c) (k + 1) (wrote + c) (by omega)]
        congr 2
        omega
    · rw [if_neg hiL]
      congr 2
      omega

/-- When the writes before number `K` succeed (report no error), the chunk
is positive and write number `K` is reached and fails, the loop returns the
sum of all reported counts together with that first error.  Stated for the
loop entered at offset `j * c` with `j ≤ K` and the corresponding
accumulator. -/
theorem writeGo_first_error (tw : Nat → Nat → Nat × Option Nat)
    (c L K nK e : Nat) (hc : 0 < c)
    (hpre : ∀ k, k < K → (tw k c).2 = none)
    (hKlt : K * c < L)
    (hfail : tw K (min c (L - K * c)) = (nK, some e)) :
    ∀ d j, j + d = K →
      writeGo tw c L (d + 1) (j * c) j (∑ k in Finset.range j, (tw k c).1) =
        some ((∑ k in Finset.range K, (tw k c).1) + nK, some e) := by
  intro d
  induction d with
  | zero =>
    intro j hj
    have hjK : K = j := by omega
    subst hjK
    show (if K * c < L then
        if K * c + c > L then
          match tw K (c - (K * c + c - L)) with
          | (n, e2) => some ((∑ k in Finset.range K, (tw k c).1) + n, e2)
        else
          match tw K c with
          | (n, some e2) => some ((∑ k in Finset.range K, (tw k c).1) + n, some e2)
          | (n, none) =>
              writeGo tw c L 0 (K * c + c) (K + 1)
                ((∑ k in Finset.range K, (tw k c).1) + n)
      else some ((∑ k in Finset.range K, (tw k c).1), none)) =
      some ((∑ k in Finset.range K, (tw k c).1) + nK, some e)
    rw [if_pos hKlt]
    by_cases hlast : K * c + c > L
    · rw [if_pos hlast]
      have hreq : c - (K * c + c - L) = min c (L - K * c) := by omega
      rw [hreq, hfail]
    · rw [if_neg hlast]
      have hreq : min c (L - K * c) = c := by omega
      rw [hreq] at hfail
      rw [hfail]
  | succ d ih =>
    intro j hj
    have hjK : j < K := by omega
    have hstep : (j + 1) * c ≤ K * c := Nat.mul_le_mul_right c (by omega)
    have hsucc : (j + 1) * c = j * c + c := by ring
    have hiL : j * c < L := by omega
    have hnotlast : ¬ j * c + c > L := by omega
    show (if j * c < L then
        if j * c + c > L then
          match tw j (c - (j * c + c - L)) with
          | (n, e2) => some ((∑ k in Finset.range j, (tw k c).1) + n, e2)
        else
          match tw j c with
          | (n, some e2) => some ((∑ k in Finset.range j, (tw k c).1) + n, some e2)
          | (n, none) =>
              writeGo tw c L (d + 1) (j * c + c) (j + 1)
                ((∑ k in Finset.range j, (tw k c).1) + n)
      else some ((∑ k in Finset.range j, (tw k c).1), none)) =
      some ((∑ k in Finset.range K, (tw k c).1) + nK, some e)
    rw [if_pos hiL, if_neg hnotlast]
    have hsnd := hpre j hjK
    rcases htw : tw j c with ⟨n, e2⟩
    rw [htw] at hsnd
    have he2 : e2 = none := hsnd
    subst he2
    show writeGo tw c L (d + 1) (j * c + c) (j + 1)
        ((∑ k in Finset.range j, (tw k c).1) + n) =
      some ((∑ k in Finset.range K, (tw k c).1) + nK, some e)
    have hsum : (∑ k in Finset.range j, (tw k c).1) + n =
        ∑ k in Finset.range (j + 1), (tw k c).1 := by
      rw [Finset.sum_range_succ, htw]
    have hmul : j * c + c = (j + 1) * c := by
      rw [Nat.succ_mul]
    rw [hsum, hmul]
    exact ih (j + 1) (by omega)

/-! ## C5 -/

/-- C5 counterexample: with a snapshotted `chunkSize` of 0 and a rate of 0,
even a transport whose every write succeeds in full never lets `Write` on a
buffer of length 2 return `(2, nil)`: the loop offset advances by the zero
chunk and the loop never exits. -/
theorem write_zero_chunk_no_return : writeNeverReturns twOK 0 0 2 := by
  intro fuel
  show writeGo twOK (effChunk 0 0) 2 fuel 0 0 0 = none
  have he : effChunk 0 0 = 0 := rfl
  rw [he]
  exact writeGo_zero_chunk 2 (by omega) fuel 0

/-- C5 amended: provided the effective chunk size (the snapshotted
`chunkSize`, lowered to `bps` when `chunkSize > bps > 0`) is positive —
which holds for every connection configured through the policier — `Write`
honours the net-style contract.  If every transport write succeeds and
reports the full length of the slice it was given, `Write` on a buffer of
length `L` returns `(L, nil)`.  If the transport writes before number `K`
report no error, write number `K` is reached (`K * chunk < L`) and fails
with error `e` after reporting `nK` bytes, `Write` returns the total number
of bytes the transport reported up to and including the failing write,
together with that first error. -/
theorem write_net_contract (tw : Nat → Nat → Nat × Option Nat)
    (cs bps L K nK e : Nat) (hc : 0 < effChunk cs bps) :
    ((∀ k m, tw k m = (m, none)) → WriteReturns tw cs bps L (L, none)) ∧
    ((∀ k, k < K → (tw k (effChunk cs bps)).2 = none) →
      K * effChunk cs bps < L →
      tw K (min (effChunk cs bps) (L - K * effChunk cs bps)) = (nK, some e) →
      WriteReturns tw cs bps L
        ((∑ k in Finset.range K, (tw k (effChunk cs bps)).1) + nK, some e)) := by
  constructor
  · intro hw
    refine ⟨L + 1, ?_⟩
    show writeGo tw (effChunk cs bps) L (L + 1) 0 0 0 = some (L, none)
    rw [writeGo_success tw hw (effChunk cs bps) L hc (L + 1) 0 0 0 (by omega)]
    congr 2
    omega
  · intro h1 h2 h3
    refine ⟨K + 1, ?_⟩
    show writeGo tw (effChunk cs bps) L (K + 1) 0 0 0 =
      some ((∑ k in Finset.range K, (tw k (effChunk cs bps)).1) + nK, some e)
    have h0 := writeGo_first_error tw (effChunk cs bps) L K nK e hc h1 h2 h3 K 0
      (by omega)
    simpa using h0

/-- C5 witness: the contract applied at chunk 2, rate 0, buffer length 5,
once with the all-success transport and once with a transport that fails at
write number 1. -/
theorem write_net_contract_witness :
    0 < effChunk 2 0 ∧
    WriteReturns twOK 2 0 5 (5, none) ∧
    WriteReturns twFail 2 0 5
      ((∑ k in Finset.range 1, (twFail k (effChunk 2 0)).1) + 0, some 7) := by
  refine ⟨by decide, ?_, ?_⟩
  · exact (write_net_contract twOK 2 0 5 0 0 0 (by decide)).1 (fun _ _ => rfl)
  · exact (write_net_contract twFail 2 0 5 1 0 7 (by decide)).2
      (fun k hk => by
        have hk0 : k = 0 := by omega
        subst hk0
        rfl)
      (by decide) (by decide)

/-! ## C6 -/

/-- C6: the claim states that with a snapshotted `chunkSize` of 0 and a
rate of 0, `Write` forwards the entire buffer in a single transport write
and terminates.  The code has no such degenerate-case branch: on a buffer
of length 1 the loop offset advances by the zero chunk, so whatever the
fuel the loop has not returned — `Write` loops forever issuing zero-length
transport writes. -/
theorem write_degenerate_diverges (fuel : Nat) :
    write twOK 0 0 1 fuel = none := by
  show writeGo twOK (effChunk 0 0) 1 fuel 0 0 0 = none
  have he : effChunk 0 0 = 0 := rfl
  rw [he]
  exact writeGo_zero_chunk 1 (by omega) fuel 0

/-! ## C7 -/

/-- A freshly wrapped connection has its lifecycle fields at their
construction values. -/
theorem WrapConn_lifecycle (b m : Nat) :
    (WrapConn b m).closed = false ∧ (WrapConn b m).onceDone = false ∧
    (WrapConn b m).sizesClosed = false ∧ (WrapConn b m).transportCloses = 0 := by
  unfold WrapConn setRate calcChunk
  split
  · exact ⟨rfl, rfl, rfl, rfl⟩
  · exact ⟨rfl, rfl, rfl, rfl⟩

/-- C7: the first `Close` on a freshly wrapped connection closes the
`sizes` channel, closes the transport exactly once, and returns the
transport close result; any `Close` on a connection whose `closed` flag is
set — as the first call leaves it — returns `ErrConnClosed` and changes
nothing, so it closes neither the channel nor the transport again. -/
theorem close_idempotent (bps maxChunk : Nat) (t1 t2 : Option Nat) :
    (Close (WrapConn bps maxChunk) t1).1 = CloseResult.transport t1 ∧
    (Close (WrapConn bps maxChunk) t1).2.sizesClosed = true ∧
    (Close (WrapConn bps maxChunk) t1).2.transportCloses = 1 ∧
    (Close (WrapConn bps maxChunk) t1).2.closed = true ∧
    (∀ s : WrappedConn, s.closed = true → Close s t2 = (CloseResult.connClosed, s)) := by
  obtain ⟨hc, ho, hs, ht⟩ := WrapConn_lifecycle bps maxChunk
  refine ⟨?_, ?_, ?_, ?_, ?_⟩
  · simp [Close, hc, ho]
  · simp [Close, hc, ho]
  · simp [Close, hc, ho, ht]
  · simp [Close, hc, ho]
  · intro s hs2
    simp [Close, hs2]

/-- C7 witness: closing a concrete wrapped connection returns the transport
result; closing it a second time returns `ErrConnClosed` with the state
untouched. -/
theorem close_idempotent_witness :
    (Close (WrapConn 1024 64) (some 3)).1 = CloseResult.transport (some 3) ∧
    Close (Close (WrapConn 1024 64) (some 3)).2 none =
      (CloseResult.connClosed, (Close (WrapConn 1024 64) (some 3)).2) := by
  have h := close_idempotent 1024 64 (some 3) none
  exact ⟨h.1, h.2.2.2.2 _ (by decide)⟩

/-! ## C8 -/

/-- C8 counterexample: the claim states that after `Close` the connection
is no longer present in the policier registry.  Wrapping a connection at
address 5 and closing it leaves the registry entry in place. -/
theorem close_registry_counterexample :
    ((closePooled (Wrap (NewPolicier 0 0) none 5).2.2.1 5
        none).connPool.lookup 5).isSome = true := by
  decide

/-- C8 amended: `Close` never removes the connection from the registry (it
has no access to the pool), so after wrapping at `addr` and closing, the
entry is still registered, and a later `SetConnRate` still propagates to
the closed connection — its stored rate becomes the propagated value (the
raw kilobyte argument, per the `SetConnRate` unit slip). -/
theorem close_keeps_registry (g c addr kbps : Nat) (tres : Option Nat) :
    (((closePooled (Wrap (NewPolicier g c) none addr).2.2.1 addr
        tres).connPool.lookup addr).isSome = true) ∧
    ((((SetConnRate (closePooled (Wrap (NewPolicier g c) none addr).2.2.1 addr tres)
        kbps).connPool.lookup addr).map WrappedConn.bps) = some kbps) := by
  have hnil : (NewPolicier g c).connPool = [] := rfl
  have hpool : (Wrap (NewPolicier g c) none addr).2.2.1.connPool =
      [(addr, WrapConn (NewPolicier g c).connBPS (NewPolicier g c).maxChunk)] := by
    show storeConn (NewPolicier g c).connPool addr _ = _
    rw [hnil]
    rfl
  have hclosed : (closePooled (Wrap (NewPolicier g c) none addr).2.2.1 addr
      tres).connPool =
      [(addr, (Close (WrapConn (NewPolicier g c).connBPS
        (NewPolicier g c).maxChunk) tres).2)] := by
    show ((Wrap (NewPolicier g c) none addr).2.2.1.connPool.map _) = _
    rw [hpool]
    simp
  constructor
  · rw [hclosed]
    simp [List.lookup]
  · have hset : (SetConnRate (closePooled
        (Wrap (NewPolicier g c) none addr).2.2.1 addr tres) kbps).connPool =
        (closePooled (Wrap (NewPolicier g c) none addr).2.2.1 addr
          tres).connPool.map (fun kv => (kv.1, setRate kv.2 kbps
            (closePooled (Wrap (NewPolicier g c) none addr).2.2.1 addr
              tres).maxChunk)) := rfl
    rw [hset, hclosed]
    simp [List.lookup, setRate_bps]

/-! ## C9 -/

/-- C9: `Wrap` with a non-nil accept error returns exactly that error, no
wrapped connection, an unchanged policier (no registration) and no
admission task; with a nil error it returns a wrapped connection built from
the current defaults, registers it in the pool under its remote address,
and starts the admission task. -/
theorem wrap_contract (p : Policier) (e addr : Nat) :
    Wrap p (some e) addr = (none, some e, p, false) ∧
    (Wrap p none addr).1 = some (WrapConn p.connBPS p.maxChunk) ∧
    (Wrap p none addr).2.1 = none ∧
    (Wrap p none addr).2.2.1.connPool.lookup addr =
      some (WrapConn p.connBPS p.maxChunk) ∧
    (Wrap p none addr).2.2.2 = true := by
  refine ⟨rfl, rfl, rfl, ?_, rfl⟩
  show List.lookup addr
    (storeConn p.connPool addr (WrapConn p.connBPS p.maxChunk)) = _
  unfold storeConn
  simp [List.lookup]

/-! ## C10 -/

/-- C10 (spec-modelled): `SetBurstFactor f` fails with
`ErrWrongBurstFactor` and leaves the whole policier state — burst factor,
`maxChunk`, limiter, connection chunk sizes — unchanged when `f < 0.001` or
`f > 1`; within `[0.001, 1]` it succeeds, stores the factor and reapplies
the current global rate, so the derived state reflects the new factor. -/
theorem setBurstFactor_contract (p : SpecPolicer) (f : ℚ) :
    ((f < 1 / 1000 ∨ 1 < f) →
      SetBurstFactor p f = (some SpecErr.wrongBurstFactor, p)) ∧
    (1 / 1000 ≤ f → f ≤ 1 →
      (SetBurstFactor p f).1 = none ∧
      (SetBurstFactor p f).2 = specApplyGlobal { p with burstFactor := f } ∧
      (SetBurstFactor p f).2.burstFactor = f) := by
  constructor
  · intro h
    unfold SetBurstFactor
    rw [if_pos h]
  · intro h1 h2
    have hno : ¬ (f < 1 / 1000 ∨ 1 < f) := by
      push_neg
      exact ⟨h1, h2⟩
    unfold SetBurstFactor
    rw [if_neg hno]
    refine ⟨rfl, rfl, rfl⟩

/-- C10 witness: a concrete policier rejects the out-of-range factor 2
unchanged and accepts the in-range factor one half. -/
theorem setBurstFactor_contract_witness :
    SetBurstFactor
      { globalBps := 1024, connBps := 0, burstFactor := 5 / 1000, maxChunk := 6,
        limiter := (some 1024, 6), conns := [] } 2 =
      (some SpecErr.wrongBurstFactor,
       { globalBps := 1024, connBps := 0, burstFactor := 5 / 1000, maxChunk := 6,
         limiter := (some 1024, 6), conns := [] }) ∧
    (SetBurstFactor
      { globalBps := 1024, connBps := 0, burstFactor := 5 / 1000, maxChunk := 6,
        limiter := (some 1024, 6), conns := [] } (1 / 2)).1 = none ∧
    (SetBurstFactor
      { globalBps := 1024, connBps := 0, burstFactor := 5 / 1000, maxChunk := 6,
        limiter := (some 1024, 6), conns := [] } (1 / 2)).2.burstFactor = 1 / 2 := by
  have hA := (setBurstFactor_contract
    { globalBps := 1024, connBps := 0, burstFactor := 5 / 1000, maxChunk := 6,
      limiter := (some 1024, 6), conns := [] } 2).1 (Or.inr (by norm_num))
  have hB := (setBurstFactor_contract
    { globalBps := 1024, connBps := 0, burstFactor := 5 / 1000, maxChunk := 6,
      limiter := (some 1024, 6), conns := [] } (1 / 2)).2 (by norm_num) (by norm_num)
  exact ⟨hA, hB.1, hB.2.2⟩

end Policied
